import Mathlib

/-!
# Verification of the signal-driven position lifecycle engine

Shallow embedding of `src/trading_agent.py` (class `HedgeFundTradingAgent`).

Modelling conventions:
* Machine floats are modelled by `PVal`: an exact rational together with the
  IEEE-754 special values `+inf`, `-inf` and `NaN`.  The pandas/numpy
  element-wise operations used by `calculate_indicators` never raise on a
  zero divisor; they produce `inf`/`NaN` following IEEE rules, which `PVal`'s
  arithmetic reproduces exactly.  Rounding of finite values is idealised
  (exact rationals); no claim settled here depends on rounding of a finite
  intermediate result.
* Comparisons involving `NaN` are `false`, as in numpy/pandas and Python.
* Python dicts used as signals are modelled by `SigDict`, whose fields are
  `Option`-valued: `none` models an *absent key*, so that the `KeyError`
  raised by `signal['buy']` on a dict without a `'buy'` key is representable.
* Plain-Python float division (used in `execute_trade` for position sizing
  and P&L) raises `ZeroDivisionError` on a zero denominator, unlike the
  pandas operations; the embedding branches explicitly on a zero denominator
  there.
* Exceptions inside `execute_trade` are caught by its own `try/except` and
  only logged; the embedding returns the (possibly unchanged) ledger together
  with a `Bool` flag recording whether the handler ran.
* `datetime.utcnow()` (the `timestamp` field of a stored position) is
  wall-clock input with no influence on any control flow and is omitted from
  the `Position` record.
-/

set_option autoImplicit false

namespace TradingAgent

/-- An IEEE-754-style scalar: an exact rational (`num`), `+inf`, `-inf`
or `NaN`.  Models the float64 values flowing through the pandas pipeline. -/
inductive PVal where
  | num (q : ℚ)
  | pinf
  | ninf
  | nan
  deriving DecidableEq, Repr, Inhabited

namespace PVal

/-- IEEE negation. -/
def neg : PVal → PVal
  | num q => num (-q)
  | pinf => ninf
  | ninf => pinf
  | nan => nan

/-- IEEE addition (`inf + -inf = NaN`, `NaN` propagates). -/
def add : PVal → PVal → PVal
  | nan, _ => nan
  | _, nan => nan
  | num a, num b => num (a + b)
  | pinf, ninf => nan
  | ninf, pinf => nan
  | pinf, _ => pinf
  | _, pinf => pinf
  | ninf, _ => ninf
  | _, ninf => ninf

/-- IEEE subtraction. -/
def sub (a b : PVal) : PVal := add a (neg b)

/-- IEEE multiplication (`inf * 0 = NaN`, `NaN` propagates). -/
def mul : PVal → PVal → PVal
  | nan, _ => nan
  | _, nan => nan
  | num a, num b => num (a * b)
  | pinf, pinf => pinf
  | pinf, ninf => ninf
  | ninf, pinf => ninf
  | ninf, ninf => pinf
  | pinf, num b => if 0 < b then pinf else if b < 0 then ninf else nan
  | ninf, num b => if 0 < b then ninf else if b < 0 then pinf else nan
  | num a, pinf => if 0 < a then pinf else if a < 0 then ninf else nan
  | num a, ninf => if 0 < a then ninf else if a < 0 then pinf else nan

/-- IEEE division: a nonzero finite number divided by zero is a signed
infinity, `0/0 = NaN`, a finite number divided by an infinity is `0`.
This is the numpy/pandas behaviour (no exception is raised). -/
def div : PVal → PVal → PVal
  | nan, _ => nan
  | _, nan => nan
  | num a, num b =>
      if b ≠ 0 then num (a / b)
      else if 0 < a then pinf
      else if a < 0 then ninf
      else nan
  | num _, pinf => num 0
  | num _, ninf => num 0
  | pinf, num b => if 0 ≤ b then pinf else ninf
  | ninf, num b => if 0 ≤ b then ninf else pinf
  | pinf, pinf => nan
  | pinf, ninf => nan
  | ninf, pinf => nan
  | ninf, ninf => nan

/-- IEEE strict less-than: any comparison involving `NaN` is `false`. -/
def lt : PVal → PVal → Bool
  | nan, _ => false
  | _, nan => false
  | num a, num b => decide (a < b)
  | num _, pinf => true
  | ninf, num _ => true
  | ninf, pinf => true
  | _, _ => false

/-- IEEE equality test: `NaN` is equal to nothing, including itself. -/
def eqv : PVal → PVal → Bool
  | num a, num b => decide (a = b)
  | pinf, pinf => true
  | ninf, ninf => true
  | _, _ => false

/-- IEEE non-strict less-than-or-equal. -/
def le (a b : PVal) : Bool := lt a b || eqv a b

/-- `a > b`, as written in the source. -/
def gt (a b : PVal) : Bool := lt b a

/-- `a >= b`, as written in the source. -/
def ge (a b : PVal) : Bool := le b a

end PVal

/-- One OHLCV candle: a row of the DataFrame produced by
`fetch_market_data` (the `timestamp` column is carried opaquely as a
rational tick). -/
structure Candle where
  timestamp : ℚ
  open_ : PVal
  high : PVal
  low : PVal
  close : PVal
  volume : PVal
  deriving DecidableEq, Repr, Inhabited

/-- A candle annotated with the three indicator columns that
`calculate_indicators` adds to the DataFrame. -/
structure AnnRow where
  base : Candle
  sma_20 : PVal
  sma_50 : PVal
  rsi : PVal
  deriving DecidableEq, Repr, Inhabited

/-- Closing-price column of the DataFrame. -/
def closesOf (df : List Candle) : List PVal := df.map (·.close)

/-- `df['close'].diff()` at index `i`: `NaN` at index 0, else the signed
difference with the previous close. -/
def deltaAt (closes : List PVal) (i : Nat) : PVal :=
  if i = 0 then PVal.nan
  else PVal.sub (closes.getD i PVal.nan) (closes.getD (i - 1) PVal.nan)

/-- `delta.where(delta > 0, 0)` at index `i`: the delta where it is
strictly positive, else `0` (a `NaN` delta compares `false`, so index 0
becomes `0`, as in pandas). -/
def gainAt (closes : List PVal) (i : Nat) : PVal :=
  if PVal.gt (deltaAt closes i) (PVal.num 0) then deltaAt closes i else PVal.num 0

/-- `-(delta.where(delta < 0, 0))` at index `i`. -/
def lossAt (closes : List PVal) (i : Nat) : PVal :=
  PVal.neg (if PVal.lt (deltaAt closes i) (PVal.num 0) then deltaAt closes i else PVal.num 0)

/-- Sum of a list of IEEE scalars (`NaN` propagates). -/
def psum (l : List PVal) : PVal := l.foldr PVal.add (PVal.num 0)

/-- `series.rolling(window=w).mean()` at index `i` for the series
`fun j => f j`: `NaN` while fewer than `w` samples exist, otherwise the
mean of the trailing `w` samples (indices `i+1-w` … `i`). -/
def rollMean (w : Nat) (f : Nat → PVal) (i : Nat) : PVal :=
  if i + 1 < w then PVal.nan
  else PVal.div (psum ((List.range' (i + 1 - w) w).map f)) (PVal.num w)

/-- `df['close'].rolling(window=w).mean()` at index `i`. -/
def smaAt (w : Nat) (closes : List PVal) (i : Nat) : PVal :=
  rollMean w (fun j => closes.getD j PVal.nan) i

/-- `gain.rolling(window=14).mean()` at index `i`. -/
def gainMeanAt (closes : List PVal) (i : Nat) : PVal :=
  rollMean 14 (gainAt closes) i

/-- `loss.rolling(window=14).mean()` at index `i`. -/
def lossMeanAt (closes : List PVal) (i : Nat) : PVal :=
  rollMean 14 (lossAt closes) i

/-- `rs = gain / loss` at index `i` (element-wise pandas division:
`inf`/`NaN` on a zero divisor, never an exception). -/
def rsAt (closes : List PVal) (i : Nat) : PVal :=
  PVal.div (gainMeanAt closes i) (lossMeanAt closes i)

/-- `df['rsi'] = 100 - (100 / (1 + rs))` at index `i`. -/
def rsiAt (closes : List PVal) (i : Nat) : PVal :=
  PVal.sub (PVal.num 100) (PVal.div (PVal.num 100) (PVal.add (PVal.num 1) (rsAt closes i)))

/-- `HedgeFundTradingAgent.calculate_indicators`: adds the `sma_20`,
`sma_50` and `rsi` columns to the DataFrame, row for row. -/
def calculateIndicators (df : List Candle) : List AnnRow :=
  let closes := closesOf df
  (List.range df.length).map fun i =>
    { base := df.getD i default
      sma_20 := smaAt 20 closes i
      sma_50 := smaAt 50 closes i
      rsi := rsiAt closes i }

/-- A Python dict used as a signal.  Each field is `none` when the key is
*absent* from the dict (so that subscripting it raises `KeyError`);
`stop_loss`/`take_profit` carry an inner `Option` whose `none` is the
Python value `None`. -/
structure SigDict where
  buy : Option Bool
  sell : Option Bool
  stop_loss : Option (Option PVal)
  take_profit : Option (Option PVal)
  deriving DecidableEq, Repr

/-- The initial `signals` dict of `generate_signals`:
`{'buy': False, 'sell': False, 'stop_loss': None, 'take_profit': None}`. -/
def noopSig : SigDict :=
  { buy := some false, sell := some false, stop_loss := some none, take_profit := some none }

/-- The dict `{'sell': True}` that `monitor_positions` hands to
`execute_trade` on a stop-loss or take-profit trigger (no other key). -/
def forcedExitSig : SigDict :=
  { buy := none, sell := some true, stop_loss := none, take_profit := none }

/-- `HedgeFundTradingAgent.generate_signals` on the annotated DataFrame:
fewer than 50 rows gives the no-op dict; otherwise compare the SMA columns
of the last two rows (`df.iloc[-1]`, `df.iloc[-2]`).  Comparisons with an
undefined (`NaN`) SMA are `false`. -/
def generateSignals (df : List AnnRow) : SigDict :=
  if df.length < 50 then noopSig
  else
    let last_row := df.getD (df.length - 1) default
    let prev_row := df.getD (df.length - 2) default
    if PVal.le prev_row.sma_20 prev_row.sma_50 && PVal.gt last_row.sma_20 last_row.sma_50 then
      { buy := some true
        sell := some false
        stop_loss := some (some (PVal.mul last_row.base.close (PVal.num 0.98)))
        take_profit := some (some (PVal.mul last_row.base.close (PVal.num 1.03))) }
    else if PVal.ge prev_row.sma_20 prev_row.sma_50 && PVal.lt last_row.sma_20 last_row.sma_50 then
      { buy := some false, sell := some true, stop_loss := some none, take_profit := some none }
    else noopSig

/-- A stored position, the value of `self.positions[symbol]`
(`timestamp := datetime.utcnow()` is omitted, see the module docstring).
`entry_price` and `size` come from exchange responses and arithmetic on
them (finite floats); `stop_loss`/`take_profit` are copied verbatim from
the signal dict, where they may be the Python value `None`. -/
structure Position where
  entry_price : ℚ
  stop_loss : Option PVal
  take_profit : Option PVal
  size : ℚ
  side : String
  deriving DecidableEq, Repr

/-- The ledger `self.positions`: a Python dict from symbol to position,
modelled as an insertion-ordered association list with unique keys. -/
abbrev Positions := List (String × Position)

/-- Python dict lookup `ps[symbol]` / membership `symbol in ps`. -/
def lookupPos (ps : Positions) (symbol : String) : Option Position :=
  match ps with
  | [] => none
  | (s, p) :: rest => if s = symbol then some p else lookupPos rest symbol

/-- Python dict assignment `ps[symbol] = p`: overwrites in place when the
key exists (keeping its slot, as CPython dicts do), else appends. -/
def insertPos (ps : Positions) (symbol : String) (p : Position) : Positions :=
  match ps with
  | [] => [(symbol, p)]
  | (s, q) :: rest =>
      if s = symbol then (s, p) :: rest else (s, q) :: insertPos rest symbol p

/-- Python `del ps[symbol]`. -/
def erasePos (ps : Positions) (symbol : String) : Positions :=
  match ps with
  | [] => []
  | (s, q) :: rest => if s = symbol then rest else (s, q) :: erasePos rest symbol

/-- The external exchange collaborator, as `execute_trade` and
`monitor_positions` consume it.  `none` models the call raising. -/
structure Exchange where
  /-- `self.exchange.fetch_balance()['USDT']['free']`. -/
  fetchBalance : Option ℚ
  /-- `self.exchange.fetch_ticker(symbol)['last']`. -/
  fetchTicker : String → Option ℚ
  /-- `self.exchange.create_market_buy_order(symbol, amount, …)`. -/
  createBuy : String → ℚ → Option Unit
  /-- `self.exchange.create_market_sell_order(symbol, amount)`; a
  successful order carries `order['price']`. -/
  createSell : String → ℚ → Option ℚ

/-- The configuration values `execute_trade` reads
(`config.get('risk_percentage', 0.01)`, `config.get('leverage', 10)`),
with defaults already applied. -/
structure Config where
  risk_percentage : ℚ
  leverage : ℚ

/-- `HedgeFundTradingAgent.execute_trade`.  Returns the new ledger and a
flag that is `true` exactly when the body raised and the `except` handler
logged `Trade execution failed` (every raise inside the body is caught
there, so nothing propagates and the ledger mutation is skipped).
Raise points modelled: `signal['buy']` / `signal['sell']` /
`signal['stop_loss']` / `signal['take_profit']` on an absent key
(`KeyError`), the three exchange calls of the buy path, the sell order,
and the two plain-float divisions by `entry_price`
(`ZeroDivisionError` when it is zero). -/
def executeTrade (ex : Exchange) (cfg : Config) (ps : Positions)
    (symbol : String) (signal : SigDict) : Positions × Bool :=
  match signal.buy with
  | none => (ps, true)
  | some b =>
    if b then
      match ex.fetchBalance with
      | none => (ps, true)
      | some balance =>
        match ex.fetchTicker symbol with
        | none => (ps, true)
        | some entry_price =>
          if entry_price = 0 then (ps, true)
          else
            let risk_amount := balance * cfg.risk_percentage
            let position_size := risk_amount * cfg.leverage / entry_price
            match ex.createBuy symbol position_size with
            | none => (ps, true)
            | some _ =>
              match signal.stop_loss with
              | none => (ps, true)
              | some sl =>
                match signal.take_profit with
                | none => (ps, true)
                | some tp =>
                  (insertPos ps symbol
                    { entry_price := entry_price
                      stop_loss := sl
                      take_profit := tp
                      size := position_size
                      side := "long" }, false)
    else
      match signal.sell with
      | none => (ps, true)
      | some s =>
        if s then
          match lookupPos ps symbol with
          | none => (ps, false)
          | some position =>
            match ex.createSell symbol position.size with
            | none => (ps, true)
            | some _exit_price =>
              if position.entry_price = 0 then (ps, true)
              else (erasePos ps symbol, false)
        else (ps, false)

/-- The stop-loss condition of `monitor_positions`:
`(side == 'long' and price <= stop_loss) or (side == 'short' and price >= stop_loss)`,
with Python short-circuiting.  `none` models the `TypeError` raised by
comparing a float with `None` when the evaluated side's `stop_loss` is
the Python value `None`. -/
def stopTrigger (position : Position) (current_price : ℚ) : Option Bool :=
  if position.side = "long" then
    match position.stop_loss with
    | none => none
    | some sl => some (PVal.le (PVal.num current_price) sl)
  else if position.side = "short" then
    match position.stop_loss with
    | none => none
    | some sl => some (PVal.ge (PVal.num current_price) sl)
  else some false

/-- The take-profit condition of `monitor_positions`, analogous. -/
def tpTrigger (position : Position) (current_price : ℚ) : Option Bool :=
  if position.side = "long" then
    match position.take_profit with
    | none => none
    | some tp => some (PVal.ge (PVal.num current_price) tp)
  else if position.side = "short" then
    match position.take_profit with
    | none => none
    | some tp => some (PVal.le (PVal.num current_price) tp)
  else some false

/-- The loop body of `monitor_positions` over the snapshot
`list(self.positions.items())`, threading the live ledger.  A failing
ticker fetch or a `TypeError` in a trigger comparison is caught by the
per-symbol `except`, which skips that symbol and continues. -/
def monitorGo (ex : Exchange) (cfg : Config) :
    List (String × Position) → Positions → Positions
  | [], live => live
  | (symbol, position) :: rest, live =>
    match ex.fetchTicker symbol with
    | none => monitorGo ex cfg rest live
    | some current_price =>
      match stopTrigger position current_price with
      | none => monitorGo ex cfg rest live
      | some true =>
          monitorGo ex cfg rest (executeTrade ex cfg live symbol forcedExitSig).1
      | some false =>
        match tpTrigger position current_price with
        | none => monitorGo ex cfg rest live
        | some true =>
            monitorGo ex cfg rest (executeTrade ex cfg live symbol forcedExitSig).1
        | some false => monitorGo ex cfg rest live

/-- `HedgeFundTradingAgent.monitor_positions`: iterate the trigger checks
over a snapshot of the ledger, returning the final ledger. -/
def monitorPositions (ex : Exchange) (cfg : Config) (ps : Positions) : Positions :=
  monitorGo ex cfg ps ps

/-! ## Helper lemmas on IEEE comparisons -/

theorem PVal.lt_nan_left (a : PVal) : PVal.lt PVal.nan a = false := by
  cases a <;> rfl

theorem PVal.lt_nan_right (a : PVal) : PVal.lt a PVal.nan = false := by
  cases a <;> rfl

theorem PVal.eqv_nan_left (a : PVal) : PVal.eqv PVal.nan a = false := by
  cases a <;> rfl

theorem PVal.eqv_nan_right (a : PVal) : PVal.eqv a PVal.nan = false := by
  cases a <;> rfl

theorem PVal.le_nan_left (a : PVal) : PVal.le PVal.nan a = false := by
  simp [PVal.le, PVal.lt_nan_left, PVal.eqv_nan_left]

theorem PVal.le_nan_right (a : PVal) : PVal.le a PVal.nan = false := by
  simp [PVal.le, PVal.lt_nan_right, PVal.eqv_nan_right]

theorem PVal.gt_nan_left (a : PVal) : PVal.gt PVal.nan a = false := by
  simp [PVal.gt, PVal.lt_nan_right]

theorem PVal.gt_nan_right (a : PVal) : PVal.gt a PVal.nan = false := by
  simp [PVal.gt, PVal.lt_nan_left]

theorem PVal.ge_nan_left (a : PVal) : PVal.ge PVal.nan a = false := by
  simp [PVal.ge, PVal.le_nan_right]

theorem PVal.ge_nan_right (a : PVal) : PVal.ge a PVal.nan = false := by
  simp [PVal.ge, PVal.le_nan_left]

/-! ## Claims C5, C6, C7: the signal generator -/

/-- **C5.** For every annotated series of length at least 50 whose fast SMA
was at or below the slow SMA on the previous candle and is strictly above
it on the latest candle (the comparisons evaluating to `true` forces all
four compared SMA values to be defined, since any comparison with `NaN` is
`false`), `generate_signals` returns exactly one buy signal — `buy` set,
`sell` clear — whose `stop_loss` is `0.98` times the latest close and whose
`take_profit` is `1.03` times the latest close. -/
theorem generateSignals_bullish_crossover (df : List AnnRow)
    (h50 : 50 ≤ df.length)
    (hprev : PVal.le (df.getD (df.length - 2) default).sma_20
      (df.getD (df.length - 2) default).sma_50 = true)
    (hlast : PVal.gt (df.getD (df.length - 1) default).sma_20
      (df.getD (df.length - 1) default).sma_50 = true) :
    generateSignals df =
      { buy := some true
        sell := some false
        stop_loss := some (some (PVal.mul (df.getD (df.length - 1) default).base.close
          (PVal.num 0.98)))
        take_profit := some (some (PVal.mul (df.getD (df.length - 1) default).base.close
          (PVal.num 1.03))) } := by
  unfold generateSignals
  rw [if_neg (by omega)]
  simp only [hprev, hlast, Bool.and_self, if_pos]

/-- Witness input for the bullish-crossover theorem: 48 filler rows, then a
row with fast SMA 1 ≤ slow SMA 2, then a row with fast SMA 3 > slow SMA 2
and close 100. -/
def bullishDf : List AnnRow :=
  List.replicate 48 default ++
    [{ base := default, sma_20 := PVal.num 1, sma_50 := PVal.num 2, rsi := PVal.nan },
     { base := { (default : Candle) with close := PVal.num 100 },
       sma_20 := PVal.num 3, sma_50 := PVal.num 2, rsi := PVal.nan }]

theorem generateSignals_bullish_crossover_witness :
    generateSignals bullishDf =
      { buy := some true
        sell := some false
        stop_loss := some (some (PVal.mul (bullishDf.getD (bullishDf.length - 1) default).base.close
          (PVal.num 0.98)))
        take_profit := some (some (PVal.mul (bullishDf.getD (bullishDf.length - 1) default).base.close
          (PVal.num 1.03))) } :=
  generateSignals_bullish_crossover bullishDf (by decide) (by decide) (by decide)

/-- **C6.** `generate_signals` returns the no-op signal (`buy` and `sell`
both clear, `stop_loss` and `take_profit` both `None`) whenever the series
has fewer than 50 rows, and also whenever any of the four compared SMA
values (previous/latest fast SMA, previous/latest slow SMA) is undefined
(`NaN`), regardless of the price shape. -/
theorem generateSignals_noop_conditions (df : List AnnRow) :
    (df.length < 50 → generateSignals df = noopSig) ∧
    ((df.getD (df.length - 2) default).sma_20 = PVal.nan ∨
     (df.getD (df.length - 2) default).sma_50 = PVal.nan ∨
     (df.getD (df.length - 1) default).sma_20 = PVal.nan ∨
     (df.getD (df.length - 1) default).sma_50 = PVal.nan →
      generateSignals df = noopSig) := by
  constructor
  · intro h
    unfold generateSignals
    rw [if_pos h]
  · intro h
    unfold generateSignals
    by_cases h50 : df.length < 50
    · rw [if_pos h50]
    · rw [if_neg h50]
      rcases h with h | h | h | h <;>
        simp only [h, PVal.le_nan_left, PVal.le_nan_right, PVal.gt_nan_left, PVal.gt_nan_right,
          PVal.ge_nan_left, PVal.ge_nan_right, PVal.lt_nan_left, PVal.lt_nan_right,
          Bool.false_and, Bool.and_false, Bool.false_eq_true, if_false]

/-- Witness input for the no-op theorem: 50 rows whose latest fast SMA is
`NaN` (and a short series for the length part). -/
def nanSmaDf : List AnnRow :=
  List.replicate 49 default ++
    [{ base := default, sma_20 := PVal.nan, sma_50 := PVal.num 2, rsi := PVal.nan }]

theorem generateSignals_noop_conditions_witness :
    generateSignals [] = noopSig ∧ generateSignals nanSmaDf = noopSig :=
  ⟨(generateSignals_noop_conditions []).1 (by decide),
   (generateSignals_noop_conditions nanSmaDf).2 (by decide)⟩

/-- **C7.** The bullish and bearish crossover branches are mutually
exclusive: every signal `generate_signals` returns has `buy` clear or
`sell` clear (never both set). -/
theorem generateSignals_mutually_exclusive (df : List AnnRow) :
    (generateSignals df).buy = some false ∨ (generateSignals df).sell = some false := by
  unfold generateSignals
  split
  · exact Or.inl rfl
  · dsimp only
    split
    · exact Or.inr rfl
    · split
      · exact Or.inl rfl
      · exact Or.inl rfl

/-! ## Claim C8: shape and window discipline of the indicator calculator -/

theorem closesOf_getD (df : List Candle) (j : Nat) (h : j < df.length) :
    (closesOf df).getD j PVal.nan = (df.getD j default).close := by
  simp [closesOf, List.getD_eq_getElem?_getD, List.getElem?_map, List.getElem?_eq_getElem h]

/-- Row `i` of the annotated DataFrame, unfolded. -/
theorem calculateIndicators_getD (df : List Candle) (i : Nat) (h : i < df.length) :
    (calculateIndicators df).getD i default =
      { base := df.getD i default
        sma_20 := smaAt 20 (closesOf df) i
        sma_50 := smaAt 50 (closesOf df) i
        rsi := rsiAt (closesOf df) i } := by
  unfold calculateIndicators
  simp [List.getD_eq_getElem?_getD, List.getElem?_map, List.getElem?_range h]

theorem smaAt_undefined (w : Nat) (closes : List PVal) (i : Nat) (h : i + 1 < w) :
    smaAt w closes i = PVal.nan := by
  unfold smaAt rollMean
  rw [if_pos h]

theorem rsiAt_undefined (closes : List PVal) (i : Nat) (h : i + 1 < 14) :
    rsiAt closes i = PVal.nan := by
  unfold rsiAt rsAt gainMeanAt lossMeanAt rollMean
  simp only [if_pos h]
  rfl

/-- A rolling mean only reads the trailing `w` samples of its series. -/
theorem rollMean_congr (w : Nat) (f g : Nat → PVal) (i : Nat)
    (h : ∀ j, i + 1 - w ≤ j → j ≤ i → f j = g j) :
    rollMean w f i = rollMean w g i := by
  unfold rollMean
  split
  · rfl
  · next hw =>
    congr 2
    refine List.map_congr_left fun a ha => ?_
    rw [List.mem_range'] at ha
    obtain ⟨k, hk, rfl⟩ := ha
    exact h _ (by omega) (by omega)

theorem deltaAt_congr (c c' : List PVal) (j : Nat)
    (hj : c.getD j PVal.nan = c'.getD j PVal.nan)
    (hj' : c.getD (j - 1) PVal.nan = c'.getD (j - 1) PVal.nan) :
    deltaAt c j = deltaAt c' j := by
  unfold deltaAt
  split
  · rfl
  · rw [hj, hj']

theorem gainAt_congr (c c' : List PVal) (j : Nat)
    (hj : c.getD j PVal.nan = c'.getD j PVal.nan)
    (hj' : c.getD (j - 1) PVal.nan = c'.getD (j - 1) PVal.nan) :
    gainAt c j = gainAt c' j := by
  unfold gainAt
  rw [deltaAt_congr c c' j hj hj']

theorem lossAt_congr (c c' : List PVal) (j : Nat)
    (hj : c.getD j PVal.nan = c'.getD j PVal.nan)
    (hj' : c.getD (j - 1) PVal.nan = c'.getD (j - 1) PVal.nan) :
    lossAt c j = lossAt c' j := by
  unfold lossAt
  rw [deltaAt_congr c c' j hj hj']

/-- The SMA over window `w` only reads closes at indices `i+1-w … i`. -/
theorem smaAt_congr (w : Nat) (c c' : List PVal) (i : Nat)
    (h : ∀ j, j ≤ i → i + 1 ≤ j + w → c.getD j PVal.nan = c'.getD j PVal.nan) :
    smaAt w c i = smaAt w c' i :=
  rollMean_congr w _ _ i fun j hj1 hj2 => h j hj2 (by omega)

/-- The RSI at index `i` only reads closes at indices `i-14 … i`. -/
theorem rsiAt_congr (c c' : List PVal) (i : Nat)
    (h : ∀ j, j ≤ i → i ≤ j + 14 → c.getD j PVal.nan = c'.getD j PVal.nan) :
    rsiAt c i = rsiAt c' i := by
  have hg : rollMean 14 (gainAt c) i = rollMean 14 (gainAt c') i :=
    rollMean_congr 14 _ _ i fun j hj1 hj2 =>
      gainAt_congr c c' j (h j hj2 (by omega)) (h (j - 1) (by omega) (by omega))
  have hl : rollMean 14 (lossAt c) i = rollMean 14 (lossAt c') i :=
    rollMean_congr 14 _ _ i fun j hj1 hj2 =>
      lossAt_congr c c' j (h j hj2 (by omega)) (h (j - 1) (by omega) (by omega))
  unfold rsiAt rsAt gainMeanAt lossMeanAt
  rw [hg, hl]

/-- **C8.** `calculate_indicators` produces a series of the same length and
order (row `i` carries candle `i`); `sma_20`, `sma_50` and `rsi` are
undefined (`NaN`) at every index with fewer samples than the respective
window (20, 50, 14); and each value is a deterministic function of the
trailing window of closes only — two series agreeing on the relevant
trailing window agree on the value, so there is no look-ahead. -/
theorem calculateIndicators_shape_and_window (df : List Candle) :
    (calculateIndicators df).length = df.length ∧
    (∀ i, i < df.length →
      ((calculateIndicators df).getD i default).base = df.getD i default) ∧
    (∀ i, i < df.length → i + 1 < 20 →
      ((calculateIndicators df).getD i default).sma_20 = PVal.nan) ∧
    (∀ i, i < df.length → i + 1 < 50 →
      ((calculateIndicators df).getD i default).sma_50 = PVal.nan) ∧
    (∀ i, i < df.length → i + 1 < 14 →
      ((calculateIndicators df).getD i default).rsi = PVal.nan) ∧
    (∀ (df' : List Candle) i, i < df.length → i < df'.length →
      (∀ j, j ≤ i → i + 1 ≤ j + 20 → (df.getD j default).close = (df'.getD j default).close) →
      ((calculateIndicators df).getD i default).sma_20 =
        ((calculateIndicators df').getD i default).sma_20) ∧
    (∀ (df' : List Candle) i, i < df.length → i < df'.length →
      (∀ j, j ≤ i → i + 1 ≤ j + 50 → (df.getD j default).close = (df'.getD j default).close) →
      ((calculateIndicators df).getD i default).sma_50 =
        ((calculateIndicators df').getD i default).sma_50) ∧
    (∀ (df' : List Candle) i, i < df.length → i < df'.length →
      (∀ j, j ≤ i → i ≤ j + 14 → (df.getD j default).close = (df'.getD j default).close) →
      ((calculateIndicators df).getD i default).rsi =
        ((calculateIndicators df').getD i default).rsi) := by
  refine ⟨by simp [calculateIndicators], ?_, ?_, ?_, ?_, ?_, ?_, ?_⟩
  · intro i h
    rw [calculateIndicators_getD df i h]
  · intro i h hw
    rw [calculateIndicators_getD df i h]
    exact smaAt_undefined 20 _ i hw
  · intro i h hw
    rw [calculateIndicators_getD df i h]
    exact smaAt_undefined 50 _ i hw
  · intro i h hw
    rw [calculateIndicators_getD df i h]
    exact rsiAt_undefined _ i hw
  · intro df' i h h' hcl
    rw [calculateIndicators_getD df i h, calculateIndicators_getD df' i h']
    exact smaAt_congr 20 _ _ i fun j hj hjw => by
      rw [closesOf_getD df j (by omega), closesOf_getD df' j (by omega)]
      exact hcl j hj hjw
  · intro df' i h h' hcl
    rw [calculateIndicators_getD df i h, calculateIndicators_getD df' i h']
    exact smaAt_congr 50 _ _ i fun j hj hjw => by
      rw [closesOf_getD df j (by omega), closesOf_getD df' j (by omega)]
      exact hcl j hj hjw
  · intro df' i h h' hcl
    rw [calculateIndicators_getD df i h, calculateIndicators_getD df' i h']
    exact rsiAt_congr _ _ i fun j hj hjw => by
      rw [closesOf_getD df j (by omega), closesOf_getD df' j (by omega)]
      exact hcl j hj hjw

/-! ## Claim C4: RSI when the trailing loss mean is zero -/

/-- A constant-price candle (close 5). -/
def constCandle : Candle :=
  { timestamp := 0, open_ := PVal.num 5, high := PVal.num 5, low := PVal.num 5,
    close := PVal.num 5, volume := PVal.num 1 }

theorem calculateIndicators_shape_and_window_witness :
    (calculateIndicators (List.replicate 3 constCandle)).length =
      (List.replicate 3 constCandle).length ∧
    ((calculateIndicators (List.replicate 3 constCandle)).getD 0 default).base =
      (List.replicate 3 constCandle).getD 0 default ∧
    ((calculateIndicators (List.replicate 3 constCandle)).getD 0 default).sma_20 = PVal.nan ∧
    ((calculateIndicators (List.replicate 3 constCandle)).getD 0 default).sma_50 = PVal.nan ∧
    ((calculateIndicators (List.replicate 3 constCandle)).getD 0 default).rsi = PVal.nan ∧
    ((calculateIndicators (List.replicate 3 constCandle)).getD 0 default).sma_20 =
      ((calculateIndicators (List.replicate 5 constCandle)).getD 0 default).sma_20 ∧
    ((calculateIndicators (List.replicate 3 constCandle)).getD 0 default).sma_50 =
      ((calculateIndicators (List.replicate 5 constCandle)).getD 0 default).sma_50 ∧
    ((calculateIndicators (List.replicate 3 constCandle)).getD 0 default).rsi =
      ((calculateIndicators (List.replicate 5 constCandle)).getD 0 default).rsi := by
  obtain ⟨h1, h2, h3, h4, h5, h6, h7, h8⟩ :=
    calculateIndicators_shape_and_window (List.replicate 3 constCandle)
  have hagree : ∀ j, j ≤ 0 →
      ((List.replicate 3 constCandle).getD j default).close =
        ((List.replicate 5 constCandle).getD j default).close := by
    intro j hj
    have hj0 : j = 0 := Nat.le_zero.mp hj
    subst hj0
    rfl
  exact ⟨h1, h2 0 (by simp), h3 0 (by simp) (by omega), h4 0 (by simp) (by omega),
    h5 0 (by simp) (by omega),
    h6 (List.replicate 5 constCandle) 0 (by simp) (by simp) (fun j hj _ => hagree j hj),
    h7 (List.replicate 5 constCandle) 0 (by simp) (by simp) (fun j hj _ => hagree j hj),
    h8 (List.replicate 5 constCandle) 0 (by simp) (by simp) (fun j hj _ => hagree j hj)⟩


/-- Evaluation: the trailing loss mean of the constant series is `0`. -/
theorem constSeries_lossMean :
    lossMeanAt (closesOf (List.replicate 20 constCandle)) 13 = PVal.num 0 := by
  norm_num [lossMeanAt, rollMean, psum, lossAt, deltaAt, closesOf, constCandle,
    List.range', List.replicate, PVal.add, PVal.sub, PVal.neg, PVal.lt, PVal.gt, PVal.le,
    PVal.eqv, PVal.div]

/-- Evaluation: the trailing gain mean of the constant series is `0`. -/
theorem constSeries_gainMean :
    gainMeanAt (closesOf (List.replicate 20 constCandle)) 13 = PVal.num 0 := by
  norm_num [gainMeanAt, rollMean, psum, gainAt, deltaAt, closesOf, constCandle,
    List.range', List.replicate, PVal.add, PVal.sub, PVal.neg, PVal.lt, PVal.gt, PVal.le,
    PVal.eqv, PVal.div]

/-- **C4, counterexample.** On a constant-price series (20 candles at
close 5) the trailing 14-sample loss mean at index 13 is exactly `0`, yet
the computed RSI at that index is `NaN` (from `rs = 0/0`), not `100`: the
zero-loss edge case is not handled explicitly. -/
theorem rsi_constant_series_nan_cex :
    lossMeanAt (closesOf (List.replicate 20 constCandle)) 13 = PVal.num 0 ∧
    ((calculateIndicators (List.replicate 20 constCandle)).getD 13 default).rsi = PVal.nan ∧
    ((calculateIndicators (List.replicate 20 constCandle)).getD 13 default).rsi ≠
      PVal.num 100 := by
  have hrsi : rsiAt (closesOf (List.replicate 20 constCandle)) 13 = PVal.nan := by
    unfold rsiAt rsAt
    rw [constSeries_lossMean, constSeries_gainMean]
    rfl
  have h13 : (13 : Nat) < (List.replicate 20 constCandle).length := by simp
  refine ⟨constSeries_lossMean, ?_, ?_⟩
  · rw [calculateIndicators_getD _ 13 h13]
    exact hrsi
  · rw [calculateIndicators_getD _ 13 h13]
    rw [hrsi]
    exact fun hcon => PVal.noConfusion hcon

/-- **C4, amended.** When the trailing 14-sample loss mean at an index is
exactly `0` and the gain mean there is a finite number `g`: if `g > 0`,
`rs` is `+inf` and the RSI formula evaluates to exactly `100` with no
division error; but if `g = 0` (as on any constant-price series), `rs` is
`NaN` (`0/0`) and the RSI is silently `NaN`, not `100`. -/
theorem rsi_zero_loss_mean (closes : List PVal) (i : Nat) (g : ℚ)
    (hloss : lossMeanAt closes i = PVal.num 0)
    (hgain : gainMeanAt closes i = PVal.num g) :
    (0 < g → rsiAt closes i = PVal.num 100) ∧
    (g = 0 → rsiAt closes i = PVal.nan) := by
  constructor
  · intro hg
    unfold rsiAt rsAt
    rw [hloss, hgain]
    simp only [PVal.div, PVal.add, PVal.sub, PVal.neg]
    rw [if_neg (by simp), if_pos hg]
    norm_num [PVal.add, PVal.div, PVal.sub, PVal.neg]
  · intro hg
    unfold rsiAt rsAt
    rw [hloss, hgain, hg]
    rfl

theorem rsi_zero_loss_mean_witness :
    rsiAt (closesOf (List.replicate 20 constCandle)) 13 = PVal.nan :=
  (rsi_zero_loss_mean (closesOf (List.replicate 20 constCandle)) 13 0
    constSeries_lossMean constSeries_gainMean).2 rfl

/-! ## Ledger lemmas -/

theorem lookupPos_cons (a : String) (q : Position) (tl : Positions) (s : String) :
    lookupPos ((a, q) :: tl) s = if a = s then some q else lookupPos tl s := rfl

theorem insertPos_cons (a : String) (q : Position) (tl : Positions) (s : String) (p : Position) :
    insertPos ((a, q) :: tl) s p =
      if a = s then (a, p) :: tl else (a, q) :: insertPos tl s p := rfl

theorem erasePos_cons (a : String) (q : Position) (tl : Positions) (s : String) :
    erasePos ((a, q) :: tl) s = if a = s then tl else (a, q) :: erasePos tl s := rfl

theorem lookupPos_insertPos_self (ps : Positions) (s : String) (p : Position) :
    lookupPos (insertPos ps s p) s = some p := by
  induction ps with
  | nil => simp [insertPos, lookupPos]
  | cons hd tl ih =>
      obtain ⟨a, q⟩ := hd
      by_cases h : a = s
      · simp [insertPos, lookupPos, h]
      · simp [insertPos, lookupPos, h, ih]

theorem lookupPos_insertPos_ne (ps : Positions) (s s' : String) (p : Position)
    (h : s' ≠ s) : lookupPos (insertPos ps s p) s' = lookupPos ps s' := by
  have hs : s ≠ s' := Ne.symm h
  induction ps with
  | nil => simp [insertPos, lookupPos, hs]
  | cons hd tl ih =>
      obtain ⟨a, q⟩ := hd
      by_cases ha : a = s
      · subst ha
        simp [insertPos, lookupPos, hs]
      · simp [insertPos, lookupPos, ha, ih]

theorem mem_insertPos (ps : Positions) (s : String) (p : Position)
    (e : String × Position) : e ∈ insertPos ps s p → e ∈ ps ∨ e = (s, p) := by
  induction ps with
  | nil => intro he; simpa [insertPos] using he
  | cons hd tl ih =>
      intro he
      obtain ⟨a, q⟩ := hd
      by_cases ha : a = s
      · rw [insertPos_cons, if_pos ha, List.mem_cons] at he
        rcases he with he | he
        · exact Or.inr (by rw [he, ha])
        · exact Or.inl (List.mem_cons_of_mem _ he)
      · rw [insertPos_cons, if_neg ha, List.mem_cons] at he
        rcases he with he | he
        · exact Or.inl (List.mem_cons.mpr (Or.inl he))
        · rcases ih he with h' | h'
          · exact Or.inl (List.mem_cons_of_mem _ h')
          · exact Or.inr h'

theorem mem_erasePos (ps : Positions) (s : String)
    (e : String × Position) : e ∈ erasePos ps s → e ∈ ps := by
  induction ps with
  | nil => intro he; simp [erasePos] at he
  | cons hd tl ih =>
      intro he
      obtain ⟨a, q⟩ := hd
      by_cases ha : a = s
      · rw [erasePos_cons, if_pos ha] at he
        exact List.mem_cons_of_mem _ he
      · rw [erasePos_cons, if_neg ha, List.mem_cons] at he
        rcases he with he | he
        · exact List.mem_cons.mpr (Or.inl he)
        · exact List.mem_cons_of_mem _ (ih he)

theorem lookupPos_eq_none_of_not_mem (ps : Positions) (s : String)
    (h : s ∉ ps.map Prod.fst) : lookupPos ps s = none := by
  induction ps with
  | nil => rfl
  | cons hd tl ih =>
      obtain ⟨a, q⟩ := hd
      simp only [List.map_cons, List.mem_cons, not_or] at h
      simp [lookupPos, Ne.symm h.1, ih h.2]

theorem lookupPos_erasePos_self (ps : Positions) (s : String)
    (hnd : (ps.map Prod.fst).Nodup) : lookupPos (erasePos ps s) s = none := by
  induction ps with
  | nil => rfl
  | cons hd tl ih =>
      obtain ⟨a, q⟩ := hd
      rw [List.map_cons, List.nodup_cons] at hnd
      by_cases ha : a = s
      · subst ha
        simp only [erasePos, if_pos rfl]
        exact lookupPos_eq_none_of_not_mem tl a hnd.1
      · simp [erasePos, lookupPos, ha, ih hnd.2]

/-! ## Unfolding helpers for `executeTrade` -/

/-- The successful buy path of `execute_trade`, unfolded: all exchange
calls succeed, the entry price is nonzero and the signal dict carries the
`stop_loss`/`take_profit` keys; the ledger assignment
`self.positions[symbol] = {...}` overwrites any existing entry. -/
theorem executeTrade_buy_eq (ex : Exchange) (cfg : Config) (ps : Positions)
    (symbol : String) (sig : SigDict) (bal entry : ℚ) (sl tp : Option PVal)
    (hbuy : sig.buy = some true)
    (hsl : sig.stop_loss = some sl) (htp : sig.take_profit = some tp)
    (hbal : ex.fetchBalance = some bal)
    (htick : ex.fetchTicker symbol = some entry) (hz : entry ≠ 0)
    (hord : ex.createBuy symbol (bal * cfg.risk_percentage * cfg.leverage / entry) = some ()) :
    executeTrade ex cfg ps symbol sig =
      (insertPos ps symbol
        { entry_price := entry
          stop_loss := sl
          take_profit := tp
          size := bal * cfg.risk_percentage * cfg.leverage / entry
          side := "long" }, false) := by
  simp only [executeTrade, hbuy, hbal, htick, hsl, htp, hord, if_neg hz, if_pos]

/-- The sell path of `execute_trade` on an untracked symbol: the
`symbol in self.positions` test fails, so the branch is silently skipped
with no exception. -/
theorem executeTrade_sell_untracked (ex : Exchange) (cfg : Config) (ps : Positions)
    (symbol : String) (sig : SigDict)
    (hbuy : sig.buy = some false) (hsell : sig.sell = some true)
    (hnone : lookupPos ps symbol = none) :
    executeTrade ex cfg ps symbol sig = (ps, false) := by
  simp only [executeTrade, hbuy, hsell, hnone, Bool.false_eq_true, if_false, if_true,
    Bool.true_eq_false, ite_false, ite_true]

/-- The successful sell path of `execute_trade`: the position exists, the
sell order succeeds and the entry price is nonzero, so the entry is
deleted from the ledger. -/
theorem executeTrade_sell_tracked (ex : Exchange) (cfg : Config) (ps : Positions)
    (symbol : String) (sig : SigDict) (pos : Position) (exitP : ℚ)
    (hbuy : sig.buy = some false) (hsell : sig.sell = some true)
    (hpos : lookupPos ps symbol = some pos)
    (hord : ex.createSell symbol pos.size = some exitP)
    (hz : pos.entry_price ≠ 0) :
    executeTrade ex cfg ps symbol sig = (erasePos ps symbol, false) := by
  simp only [executeTrade, hbuy, hsell, hpos, hord, if_neg hz, Bool.false_eq_true, if_false,
    if_true, Bool.true_eq_false, ite_false, ite_true]

/-! ## Concrete fixtures for witnesses and counterexamples -/

/-- An open long position: entry 100, stop 98, take-profit 103, size 1. -/
def posOld : Position :=
  { entry_price := 100, stop_loss := some (PVal.num 98),
    take_profit := some (PVal.num 103), size := 1, side := "long" }

/-- An exchange on which every call succeeds: balance 1000, every ticker
price 200, orders fill. -/
def exOk : Exchange :=
  { fetchBalance := some 1000
    fetchTicker := fun _ => some 200
    createBuy := fun _ _ => some ()
    createSell := fun _ _ => some 200 }

/-- An exchange on which every call raises. -/
def exFail : Exchange :=
  { fetchBalance := none
    fetchTicker := fun _ => none
    createBuy := fun _ _ => none
    createSell := fun _ _ => none }

/-- The defaults of `config.get`: 1% risk, 10x leverage. -/
def cfgDefault : Config := { risk_percentage := 1 / 100, leverage := 10 }

/-- A generator-produced buy signal. -/
def buySignal : SigDict :=
  { buy := some true, sell := some false,
    stop_loss := some (some (PVal.num 196)), take_profit := some (some (PVal.num 206)) }

/-- A generator-produced sell signal. -/
def sellSignal : SigDict :=
  { buy := some false, sell := some true, stop_loss := some none, take_profit := some none }

/-- The position the buy path of `exOk`/`cfgDefault`/`buySignal` stores. -/
def posNew : Position :=
  { entry_price := 200, stop_loss := some (PVal.num 196),
    take_profit := some (PVal.num 206),
    size := 1000 * cfgDefault.risk_percentage * cfgDefault.leverage / 200, side := "long" }

/-! ## Claim C2: opening over an existing position -/

/-- **C2, counterexample.**  With a position for `"BTC/USDT"` already in
the ledger, executing a buy signal for the same symbol does *not* fail:
it completes without raising (flag `false`) and replaces the existing
entry with the freshly built one — a silent overwrite.  There is no
`DuplicatePositionError` anywhere in the program. -/
theorem open_duplicate_overwrites_cex :
    executeTrade exOk cfgDefault [("BTC/USDT", posOld)] "BTC/USDT" buySignal =
      ([("BTC/USDT", posNew)], false) ∧ posNew ≠ posOld := by
  constructor
  · simp only [executeTrade, exOk, buySignal, cfgDefault, posNew, insertPos,
      if_neg (by norm_num : (200 : ℚ) ≠ 0), if_pos]
  · intro hcon
    have := congrArg Position.entry_price hcon
    simp only [posNew, posOld] at this
    norm_num at this

/-- **C2, amended.**  When a buy signal is executed for a symbol that
already has a ledger entry and every exchange call succeeds (with a
nonzero entry price), `execute_trade` raises nothing and performs the dict
assignment `self.positions[symbol] = {...}`, which silently overwrites the
existing entry: afterwards the ledger maps the symbol to the freshly built
long position, and all other symbols are untouched. -/
theorem open_duplicate_overwrites (ex : Exchange) (cfg : Config) (ps : Positions)
    (symbol : String) (sig : SigDict) (old : Position) (bal entry : ℚ) (sl tp : Option PVal)
    (_hold : lookupPos ps symbol = some old)
    (hbuy : sig.buy = some true)
    (hsl : sig.stop_loss = some sl) (htp : sig.take_profit = some tp)
    (hbal : ex.fetchBalance = some bal)
    (htick : ex.fetchTicker symbol = some entry) (hz : entry ≠ 0)
    (hord : ex.createBuy symbol (bal * cfg.risk_percentage * cfg.leverage / entry) = some ()) :
    executeTrade ex cfg ps symbol sig =
      (insertPos ps symbol
        { entry_price := entry, stop_loss := sl, take_profit := tp,
          size := bal * cfg.risk_percentage * cfg.leverage / entry, side := "long" }, false) ∧
    lookupPos (executeTrade ex cfg ps symbol sig).1 symbol =
      some
        ({ entry_price := entry, stop_loss := sl, take_profit := tp,
           size := bal * cfg.risk_percentage * cfg.leverage / entry, side := "long" }) ∧
    ∀ s', s' ≠ symbol →
      lookupPos (executeTrade ex cfg ps symbol sig).1 s' = lookupPos ps s' := by
  have heq := executeTrade_buy_eq ex cfg ps symbol sig bal entry sl tp
    hbuy hsl htp hbal htick hz hord
  refine ⟨heq, ?_, ?_⟩
  · rw [heq]
    exact lookupPos_insertPos_self ps symbol _
  · intro s' hs'
    rw [heq]
    exact lookupPos_insertPos_ne ps symbol s' _ hs'

theorem open_duplicate_overwrites_witness :
    executeTrade exOk cfgDefault [("BTC/USDT", posOld)] "BTC/USDT" buySignal =
      (insertPos [("BTC/USDT", posOld)] "BTC/USDT" posNew, false) ∧
    lookupPos (executeTrade exOk cfgDefault [("BTC/USDT", posOld)] "BTC/USDT" buySignal).1
      "BTC/USDT" = some posNew :=
  have h := open_duplicate_overwrites exOk cfgDefault [("BTC/USDT", posOld)] "BTC/USDT"
    buySignal posOld 1000 200 (some (PVal.num 196)) (some (PVal.num 206))
    rfl rfl rfl rfl rfl rfl (by norm_num) rfl
  ⟨h.1, h.2.1⟩

/-! ## Claim C3: closing an untracked / tracked symbol -/

/-- **C3, counterexample.**  A sell signal for a symbol with no ledger
entry does *not* fail with `NoPositionError` (there is no such error in
the program): the guard `symbol in self.positions` short-circuits the
branch, and `execute_trade` returns with the ledger unchanged and no
exception raised or logged (flag `false`). -/
theorem close_untracked_noop_cex :
    executeTrade exOk cfgDefault [] "BTC/USDT" sellSignal = ([], false) := rfl

/-- **C3, amended.**  On the sell path, an untracked symbol is a silent
no-op (no error is surfaced and the ledger is unchanged); for a tracked
symbol whose sell order succeeds (and entry price is nonzero), the entry
is deleted from the ledger — it is removed, but `execute_trade` returns
no position record (the Python method has no return value). -/
theorem close_paths (ex : Exchange) (cfg : Config) (ps : Positions)
    (symbol : String) (sig : SigDict) (pos : Position) (exitP : ℚ)
    (hbuy : sig.buy = some false) (hsell : sig.sell = some true)
    (hnd : (ps.map Prod.fst).Nodup) :
    (lookupPos ps symbol = none → executeTrade ex cfg ps symbol sig = (ps, false)) ∧
    (lookupPos ps symbol = some pos → ex.createSell symbol pos.size = some exitP →
      pos.entry_price ≠ 0 →
      executeTrade ex cfg ps symbol sig = (erasePos ps symbol, false) ∧
      lookupPos (executeTrade ex cfg ps symbol sig).1 symbol = none) := by
  constructor
  · intro hnone
    exact executeTrade_sell_untracked ex cfg ps symbol sig hbuy hsell hnone
  · intro hpos hord hz
    have heq := executeTrade_sell_tracked ex cfg ps symbol sig pos exitP
      hbuy hsell hpos hord hz
    refine ⟨heq, ?_⟩
    rw [heq]
    exact lookupPos_erasePos_self ps symbol hnd

theorem close_paths_witness :
    executeTrade exOk cfgDefault [] "ETH/USDT" sellSignal = ([], false) ∧
    executeTrade exOk cfgDefault [("BTC/USDT", posOld)] "BTC/USDT" sellSignal =
      (erasePos [("BTC/USDT", posOld)] "BTC/USDT", false) :=
  ⟨(close_paths exOk cfgDefault [] "ETH/USDT" sellSignal posOld 200 rfl rfl (by simp)).1 rfl,
   ((close_paths exOk cfgDefault [("BTC/USDT", posOld)] "BTC/USDT" sellSignal posOld 200
      rfl rfl (by simp)).2 rfl rfl (by norm_num [posOld])).1⟩

/-! ## Claim C9: failed execution never mutates the ledger -/

/-- **C9.**  If the step the executed branch reaches fails — the balance
fetch, the ticker fetch or the buy order on the buy path; the sell order
on the sell path — then `execute_trade` catches the exception and returns
with the ledger exactly as it was: no phantom position is inserted on a
failed buy and no position is removed on a failed sell. -/
theorem executeTrade_failure_preserves_ledger (ex : Exchange) (cfg : Config)
    (ps : Positions) (symbol : String) (sig : SigDict)
    (hbuyPath : ex.fetchBalance = none ∨ ex.fetchTicker symbol = none ∨
      ∀ amt, ex.createBuy symbol amt = none)
    (hsellPath : ∀ amt, ex.createSell symbol amt = none) :
    (executeTrade ex cfg ps symbol sig).1 = ps := by
  cases hb : sig.buy with
  | none => simp [executeTrade, hb]
  | some b =>
    cases b with
    | true =>
      rcases hbuyPath with h | h | h
      · simp [executeTrade, hb, h]
      · cases hfb : ex.fetchBalance with
        | none => simp [executeTrade, hb, hfb]
        | some bal => simp [executeTrade, hb, hfb, h]
      · cases hfb : ex.fetchBalance with
        | none => simp [executeTrade, hb, hfb]
        | some bal =>
          cases hft : ex.fetchTicker symbol with
          | none => simp [executeTrade, hb, hfb, hft]
          | some entry =>
            by_cases hz : entry = 0
            · simp [executeTrade, hb, hfb, hft, if_pos hz]
            · simp [executeTrade, hb, hfb, hft, if_neg hz, h]
    | false =>
      cases hs : sig.sell with
      | none => simp [executeTrade, hb, hs]
      | some s =>
        cases s with
        | false => simp [executeTrade, hb, hs]
        | true =>
          cases hlp : lookupPos ps symbol with
          | none => simp [executeTrade, hb, hs, hlp]
          | some pos => simp [executeTrade, hb, hs, hlp, hsellPath]

theorem executeTrade_failure_preserves_ledger_witness :
    (executeTrade exFail cfgDefault [("BTC/USDT", posOld)] "BTC/USDT" sellSignal).1 =
      [("BTC/USDT", posOld)] :=
  executeTrade_failure_preserves_ledger exFail cfgDefault [("BTC/USDT", posOld)]
    "BTC/USDT" sellSignal (Or.inl rfl) (fun _ => rfl)

/-! ## Claim C10: the ledger only ever holds long positions -/

/-- The stop-loss condition of the risk monitor with the short-position
disjunct removed; used to state that the short branches are dead code. -/
def stopTriggerLongOnly (position : Position) (current_price : ℚ) : Option Bool :=
  if position.side = "long" then
    match position.stop_loss with
    | none => none
    | some sl => some (PVal.le (PVal.num current_price) sl)
  else some false

/-- The take-profit condition with the short-position disjunct removed. -/
def tpTriggerLongOnly (position : Position) (current_price : ℚ) : Option Bool :=
  if position.side = "long" then
    match position.take_profit with
    | none => none
    | some tp => some (PVal.ge (PVal.num current_price) tp)
  else some false

/-- The monitoring loop with the short branches removed. -/
def monitorGoLongOnly (ex : Exchange) (cfg : Config) :
    List (String × Position) → Positions → Positions
  | [], live => live
  | (symbol, position) :: rest, live =>
    match ex.fetchTicker symbol with
    | none => monitorGoLongOnly ex cfg rest live
    | some current_price =>
      match stopTriggerLongOnly position current_price with
      | none => monitorGoLongOnly ex cfg rest live
      | some true =>
          monitorGoLongOnly ex cfg rest (executeTrade ex cfg live symbol forcedExitSig).1
      | some false =>
        match tpTriggerLongOnly position current_price with
        | none => monitorGoLongOnly ex cfg rest live
        | some true =>
            monitorGoLongOnly ex cfg rest (executeTrade ex cfg live symbol forcedExitSig).1
        | some false => monitorGoLongOnly ex cfg rest live

/-- `monitor_positions` with the short branches removed. -/
def monitorPositionsLongOnly (ex : Exchange) (cfg : Config) (ps : Positions) : Positions :=
  monitorGoLongOnly ex cfg ps ps

/-- Every run of `execute_trade` leaves the ledger unchanged, inserts one
freshly built position whose `side` is `"long"`, or deletes an entry. -/
theorem executeTrade_ledger_cases (ex : Exchange) (cfg : Config) (ps : Positions)
    (symbol : String) (sig : SigDict) :
    (executeTrade ex cfg ps symbol sig).1 = ps ∨
    (∃ p : Position, p.side = "long" ∧
      (executeTrade ex cfg ps symbol sig).1 = insertPos ps symbol p) ∨
    (executeTrade ex cfg ps symbol sig).1 = erasePos ps symbol := by
  cases hb : sig.buy with
  | none => left; simp [executeTrade, hb]
  | some b =>
    cases b with
    | true =>
      cases hfb : ex.fetchBalance with
      | none => left; simp [executeTrade, hb, hfb]
      | some bal =>
        cases hft : ex.fetchTicker symbol with
        | none => left; simp [executeTrade, hb, hfb, hft]
        | some entry =>
          by_cases hz : entry = 0
          · left; simp [executeTrade, hb, hfb, hft, if_pos hz]
          · cases hcb : ex.createBuy symbol (bal * cfg.risk_percentage * cfg.leverage / entry) with
            | none => left; simp [executeTrade, hb, hfb, hft, if_neg hz, hcb]
            | some u =>
              cases hsl : sig.stop_loss with
              | none => left; simp [executeTrade, hb, hfb, hft, if_neg hz, hcb, hsl]
              | some sl =>
                cases htp : sig.take_profit with
                | none => left; simp [executeTrade, hb, hfb, hft, if_neg hz, hcb, hsl, htp]
                | some tp =>
                  right; left
                  refine ⟨{ entry_price := entry
                            stop_loss := sl
                            take_profit := tp
                            size := bal * cfg.risk_percentage * cfg.leverage / entry
                            side := "long" }, rfl, ?_⟩
                  simp [executeTrade, hb, hfb, hft, if_neg hz, hcb, hsl, htp]
    | false =>
      cases hs : sig.sell with
      | none => left; simp [executeTrade, hb, hs]
      | some s =>
        cases s with
        | false => left; simp [executeTrade, hb, hs]
        | true =>
          cases hlp : lookupPos ps symbol with
          | none => left; simp [executeTrade, hb, hs, hlp]
          | some pos =>
            cases hcs : ex.createSell symbol pos.size with
            | none => left; simp [executeTrade, hb, hs, hlp, hcs]
            | some price =>
              by_cases hz : pos.entry_price = 0
              · left; simp [executeTrade, hb, hs, hlp, hcs, if_pos hz]
              · right; right; simp [executeTrade, hb, hs, hlp, hcs, if_neg hz]

theorem stopTrigger_long (position : Position) (price : ℚ)
    (h : position.side = "long") :
    stopTrigger position price = stopTriggerLongOnly position price := by
  simp [stopTrigger, stopTriggerLongOnly, h]

theorem tpTrigger_long (position : Position) (price : ℚ)
    (h : position.side = "long") :
    tpTrigger position price = tpTriggerLongOnly position price := by
  simp [tpTrigger, tpTriggerLongOnly, h]

theorem monitorGo_long (ex : Exchange) (cfg : Config)
    (snap : List (String × Position))
    (h : ∀ e ∈ snap, (e : String × Position).2.side = "long") :
    ∀ live, monitorGo ex cfg snap live = monitorGoLongOnly ex cfg snap live := by
  induction snap with
  | nil => intro live; rfl
  | cons hd tl ih =>
    intro live
    obtain ⟨sym, pos⟩ := hd
    have hside : pos.side = "long" := h (sym, pos) (List.mem_cons_self _ _)
    have htl : ∀ e ∈ tl, (e : String × Position).2.side = "long" :=
      fun e he => h e (List.mem_cons_of_mem _ he)
    cases hft : ex.fetchTicker sym with
    | none =>
        simp only [monitorGo, monitorGoLongOnly, hft]
        exact ih htl live
    | some price =>
        simp only [monitorGo, monitorGoLongOnly, hft,
          stopTrigger_long pos price hside, tpTrigger_long pos price hside]
        cases hst : stopTriggerLongOnly pos price with
        | none => exact ih htl live
        | some b =>
          cases b with
          | true => exact ih htl _
          | false =>
            cases htpp : tpTriggerLongOnly pos price with
            | none => exact ih htl live
            | some b2 =>
              cases b2 with
              | true => exact ih htl _
              | false => exact ih htl live

/-- **C10.**  The only path that ever inserts into the ledger is the buy
branch, which always writes `side = "long"`; hence, starting from an
all-long ledger, the ledger stays all-long across any `execute_trade`
call, and on an all-long ledger `monitor_positions` behaves exactly like
the variant with the short-position branches deleted — the short branches
of the stop-loss and take-profit checks are never taken. -/
theorem ledger_long_only_invariant :
    (∀ (ex : Exchange) (cfg : Config) (ps : Positions) (symbol : String) (sig : SigDict),
      (∀ e ∈ ps, (e : String × Position).2.side = "long") →
      ∀ e ∈ (executeTrade ex cfg ps symbol sig).1, (e : String × Position).2.side = "long") ∧
    (∀ (ex : Exchange) (cfg : Config) (ps : Positions),
      (∀ e ∈ ps, (e : String × Position).2.side = "long") →
      monitorPositions ex cfg ps = monitorPositionsLongOnly ex cfg ps) := by
  constructor
  · intro ex cfg ps symbol sig hside e he
    rcases executeTrade_ledger_cases ex cfg ps symbol sig with h | ⟨p, hp, h⟩ | h
    · exact hside e (h ▸ he)
    · rw [h] at he
      rcases mem_insertPos ps symbol p e he with h' | h'
      · exact hside e h'
      · rw [h']
        exact hp
    · rw [h] at he
      exact hside e (mem_erasePos ps symbol e he)
  · intro ex cfg ps hside
    exact monitorGo_long ex cfg ps hside ps

theorem ledger_long_only_invariant_witness :
    posOld.side = "long" ∧
    monitorPositions exOk cfgDefault [("BTC/USDT", posOld)] =
      monitorPositionsLongOnly exOk cfgDefault [("BTC/USDT", posOld)] := by
  have h := ledger_long_only_invariant
  constructor
  · exact h.1 exFail cfgDefault [("BTC/USDT", posOld)] "BTC/USDT" sellSignal
      (fun e he => by rw [List.mem_singleton] at he; rw [he]; rfl)
      ("BTC/USDT", posOld)
      (by simp [executeTrade, exFail, sellSignal, lookupPos])
  · exact h.2 exOk cfgDefault [("BTC/USDT", posOld)]
      (fun e he => by rw [List.mem_singleton] at he; rw [he]; rfl)

/-! ## Claim C1: stop-loss / take-profit exits never close the position -/

/-- An exchange whose ticker reports price 97, below the stop-loss 98 of
`posOld`; every order call would succeed. -/
def exStop : Exchange :=
  { fetchBalance := some 1000
    fetchTicker := fun _ => some 97
    createBuy := fun _ _ => some ()
    createSell := fun _ _ => some 97 }

/-- **C1.**  With an open long position (stop-loss 98) and the current
price 97, the stop-loss trigger fires and `monitor_positions` hands the
dict `{'sell': True}` to `execute_trade` — but that path evaluates
`signal['buy']` first, which raises `KeyError` (the dict has no `'buy'`
key); the `except` handler logs the failure (flag `true`) and the ledger
is returned unchanged.  The position is neither closed nor removed,
contradicting the claim that the monitoring step closes it. -/
theorem monitor_stop_trigger_leaves_position_open :
    stopTrigger posOld 97 = some true ∧
    executeTrade exStop cfgDefault [("BTC/USDT", posOld)] "BTC/USDT" forcedExitSig =
      ([("BTC/USDT", posOld)], true) ∧
    monitorPositions exStop cfgDefault [("BTC/USDT", posOld)] = [("BTC/USDT", posOld)] := by
  refine ⟨by decide, rfl, by decide⟩

end TradingAgent
